import Mathlib

/-!
Shallow embedding of the order-placement core of `src/server.js` in the
Restaurant Management System repository: the `POST /api/orders` handler
(server.js lines 365-460), its express-validator chain, the inventory
deduction loop, the payment insert, the commit/rollback orchestration and
the email-notification hook, together with the table schemas from
`createTables`. SQL `DECIMAL(10,2)` amounts are modelled as exact
fixed-point integers (`Int`, counting hundredths — every operation the
order path performs on them, comparison, subtraction and multiplication by
an integer count, is closed over this representation and agrees with exact
decimal arithmetic); each table is a list of rows in insertion order. The
store's begin/commit primitives may fail, so `placeOrder` takes two Bool
parameters describing the store's behaviour on this request. Besides the
resulting database and HTTP response, `placeOrder` returns the
chronological list of store/notifier events the handler performed, used to
state the temporal and no-store-access claims.
-/

/-- Order status enum of the `orders` table (schema default is `pending`;
the POST /api/orders insert does not mention the column). -/
inductive OrderStatus
  | pending | preparing | ready | delivered | cancelled
  deriving DecidableEq, Repr

/-- Payment status enum shared by `orders.payment_status` and
`payments.status` (schema default `pending`). -/
inductive PayStatus
  | pending | completed | failed
  deriving DecidableEq, Repr

/-- Row of the `inventory` table (columns relevant to order placement). -/
structure InventoryRow where
  id : Int
  item_name : String
  quantity : Int
  deriving DecidableEq, Repr

/-- Row of the `menu_inventory_mapping` join table. -/
structure MappingRow where
  menu_item_id : Int
  inventory_item_id : Int
  quantity_required : Int
  deriving DecidableEq, Repr

/-- Row of the `orders` table (columns written by order placement; the
insert at server.js:387 supplies the customer fields, total and payment
method, so `status` and `payment_status` take their schema defaults). -/
structure OrderRow where
  id : Nat
  customer_name : String
  customer_phone : String
  customer_email : Option String
  total_amount : Int
  status : OrderStatus
  payment_status : PayStatus
  payment_method : Option String
  deriving DecidableEq, Repr

/-- Row of the `order_items` table. -/
structure OrderItemRow where
  order_id : Nat
  menu_item_id : Int
  quantity : Int
  price : Int
  deriving DecidableEq, Repr

/-- Row of the `payments` table (the insert at server.js:429 supplies
order id, amount and method, so `status` takes its schema default). -/
structure PaymentRow where
  order_id : Nat
  amount : Int
  payment_method : Option String
  status : PayStatus
  deriving DecidableEq, Repr

/-- The relational store: the four tables order placement writes, the
mapping table it reads, and the auto-increment counter of `orders`. -/
structure DB where
  orders : List OrderRow
  order_items : List OrderItemRow
  payments : List PaymentRow
  inventory : List InventoryRow
  menu_inventory_mapping : List MappingRow
  nextOrderId : Nat
  deriving DecidableEq, Repr

/-- One entry of the request's `items` array. The express-validator chain
at server.js:365-370 never inspects these fields, so no shape constraints
are imposed here: quantity may be non-positive and price negative. -/
structure ReqItem where
  menu_item_id : Int
  quantity : Int
  price : Int
  deriving DecidableEq, Repr

/-- The JSON body of `POST /api/orders` as destructured at server.js:377. -/
structure OrderRequest where
  customer_name : String
  customer_phone : String
  customer_email : Option String
  items : List ReqItem
  total_amount : Int
  payment_method : Option String
  deriving DecidableEq, Repr

/-- Store/notifier events, in the order the handler performs them. -/
inductive Ev
  | beginTxn
  | insertOrder
  | insertOrderItems
  | selectMappings (menu_item_id : Int)
  | updateInventory (inventory_item_id : Int)
  | insertPayment
  | emailAttempt (recipient : String)
  | commit (ok : Bool)
  | rollback
  deriving DecidableEq, Repr

/-- HTTP outcome of the handler: 201 with the new order id, 400 with the
first validation message, or 500 with an error message. -/
inductive Resp
  | created (orderId : Nat)
  | validationError (msg : String)
  | serverError (msg : String)
  deriving DecidableEq, Repr

/-- Abstraction of express-validator's `isEmail` syntactic check. No claim
depends on the exact address grammar, only on whether the optional email
field is checked at all, so a representative executable predicate is used. -/
def isEmail (s : String) : Bool := s.toList.contains '@' && s ≠ ""

/-- The express-validator chain of `POST /api/orders` (server.js:365-370):
`customer_name` non-empty, `customer_phone` non-empty, `customer_email`
optional but syntactically valid when present, `total_amount` a float at
least 0, `items` an array of at least one element. Validators run in
declaration order and the handler returns the first failure's message
(express-validator's default message is "Invalid value"). Nothing inside
the entries of `items` is inspected. -/
def validateOrder (r : OrderRequest) : Option String :=
  if r.customer_name = "" then some "Invalid value"
  else if r.customer_phone = "" then some "Invalid value"
  else if (match r.customer_email with
           | some e => !(isEmail e)
           | none => false) then some "Invalid value"
  else if r.total_amount < 0 then some "Invalid value"
  else if r.items.length < 1 then some "Invalid value"
  else none

/-- The conditional decrement `UPDATE inventory SET quantity = quantity - ?
WHERE id = ? AND quantity >= ?` (server.js:418): every row matching the
WHERE clause is decremented, and the second component is `affectedRows`,
the number of matching rows. -/
def runUpdateInventory (inv : List InventoryRow) (invId : Int) (amt : Int) :
    List InventoryRow × Nat :=
  (inv.map (fun row =>
      if row.id = invId ∧ amt ≤ row.quantity
      then { row with quantity := row.quantity - amt } else row),
   (inv.filter (fun row => decide (row.id = invId ∧ amt ≤ row.quantity))).length)

/-- Inner loop at server.js:417-425: for each mapping row of the current
menu item, run the conditional decrement with amount
`quantity_required * item.quantity`; `affectedRows === 0` rejects with
`Error('Insufficient inventory')`, aborting the remaining iterations.
Returns the emitted update events and `none` on rejection. -/
def deductMappings (inv : List InventoryRow) (qty : Int) :
    List MappingRow → List Ev × Option (List InventoryRow)
  | [] => ([], some inv)
  | m :: ms =>
    let amt := m.quantity_required * qty
    let r := runUpdateInventory inv m.inventory_item_id amt
    if r.2 = 0 then ([Ev.updateInventory m.inventory_item_id], none)
    else
      let rest := deductMappings r.1 qty ms
      (Ev.updateInventory m.inventory_item_id :: rest.1, rest.2)

/-- Outer loop at server.js:408-426: items are traversed in request order;
for each, the `SELECT inventory_item_id, quantity_required FROM
menu_inventory_mapping WHERE menu_item_id = ?` rows are fetched and
deducted; the first rejection aborts the whole loop. -/
def deductItems (maps : List MappingRow) (inv : List InventoryRow) :
    List ReqItem → List Ev × Option (List InventoryRow)
  | [] => ([], some inv)
  | it :: its =>
    let ms := maps.filter (fun m => m.menu_item_id == it.menu_item_id)
    let r1 := deductMappings inv it.quantity ms
    match r1.2 with
    | none => (Ev.selectMappings it.menu_item_id :: r1.1, none)
    | some inv' =>
      let r2 := deductItems maps inv' its
      (Ev.selectMappings it.menu_item_id :: (r1.1 ++ r2.1), r2.2)

/-- The `orders` row built by the INSERT at server.js:387-393: customer
fields, total and method from the request body, `status` and
`payment_status` from the schema defaults, id from the auto-increment
counter. -/
def newOrderRow (db : DB) (r : OrderRequest) : OrderRow :=
  { id := db.nextOrderId, customer_name := r.customer_name,
    customer_phone := r.customer_phone, customer_email := r.customer_email,
    total_amount := r.total_amount, status := OrderStatus.pending,
    payment_status := PayStatus.pending, payment_method := r.payment_method }

/-- The `order_items` rows built by the bulk INSERT at server.js:398-405:
one row per requested line, tagged with the new order id and carrying the
caller-supplied quantity and price. -/
def newItemRows (db : DB) (r : OrderRequest) : List OrderItemRow :=
  r.items.map (fun it =>
    { order_id := db.nextOrderId, menu_item_id := it.menu_item_id,
      quantity := it.quantity, price := it.price })

/-- The `payments` row built by the INSERT at server.js:429-435: the new
order id, the caller-supplied total and method, `status` from the schema
default. -/
def newPaymentRow (db : DB) (r : OrderRequest) : PaymentRow :=
  { order_id := db.nextOrderId, amount := r.total_amount,
    payment_method := r.payment_method, status := PayStatus.pending }

/-- The notification events of server.js:437-444: one attempt when
`customer_email` is present, none otherwise. -/
def emailEvents (r : OrderRequest) : List Ev :=
  match r.customer_email with
  | some e => [Ev.emailAttempt e]
  | none => []

/-- The `POST /api/orders` handler (server.js:365-460). `beginOk` and
`commitOk` model whether the store's `beginTransaction` and `commit`
primitives succeed on this request. On validation failure the handler
returns 400 before touching the store. Inside the transaction it inserts
the order row (auto-increment id), bulk-inserts one order_items row per
requested line with the caller-supplied price, runs the inventory
deduction loop, inserts the pending payment row, awaits the email
notification when `customer_email` is present (sendEmail at
server.js:178-190 catches its own errors and never throws), and only then
calls `commit`. Any rejection inside the `try` reaches the `catch`, which
rolls the store back to its pre-transaction state and returns 500 with the
error's message; a failed commit likewise rolls back. -/
def placeOrder (db : DB) (r : OrderRequest) (beginOk commitOk : Bool) :
    DB × Resp × List Ev :=
  match validateOrder r with
  | some msg => (db, Resp.validationError msg, [])
  | none =>
    if beginOk = false then (db, Resp.serverError "Transaction failed", [Ev.beginTxn])
    else
      let db1 : DB := { db with orders := db.orders ++ [newOrderRow db r],
                                nextOrderId := db.nextOrderId + 1 }
      let db2 : DB := { db1 with order_items := db1.order_items ++ newItemRows db r }
      let ded := deductItems db2.menu_inventory_mapping db2.inventory r.items
      let evs0 := [Ev.beginTxn, Ev.insertOrder, Ev.insertOrderItems] ++ ded.1
      match ded.2 with
      | none => (db, Resp.serverError "Insufficient inventory", evs0 ++ [Ev.rollback])
      | some inv' =>
        let db3 : DB := { db2 with inventory := inv' }
        let db4 : DB := { db3 with payments := db3.payments ++ [newPaymentRow db r] }
        if commitOk
        then (db4, Resp.created db.nextOrderId,
              evs0 ++ [Ev.insertPayment] ++ emailEvents r ++ [Ev.commit true])
        else (db, Resp.serverError "Transaction commit failed",
              evs0 ++ [Ev.insertPayment] ++ emailEvents r ++ [Ev.commit false, Ev.rollback])

/-- Rows of `inventory` with a given id (`SELECT * FROM inventory WHERE id = ?`). -/
def rowsWithId (inv : List InventoryRow) (invId : Int) : List InventoryRow :=
  inv.filter (fun row => decide (row.id = invId))

/-- Rows of `orders` with a given id. -/
def ordersWithId (l : List OrderRow) (oid : Nat) : List OrderRow :=
  l.filter (fun o => decide (o.id = oid))

/-- Rows of `order_items` belonging to a given order. -/
def itemsOfOrder (l : List OrderItemRow) (oid : Nat) : List OrderItemRow :=
  l.filter (fun i => decide (i.order_id = oid))

/-- Rows of `payments` belonging to a given order. -/
def paymentsOfOrder (l : List PaymentRow) (oid : Nat) : List PaymentRow :=
  l.filter (fun p => decide (p.order_id = oid))

/-- Whether `needle` occurs as a contiguous substring of `hay` (used to ask
whether an error message names an ingredient or a menu line). -/
def mentions (hay needle : String) : Bool :=
  hay.toList.tails.any (fun t => needle.toList.isPrefixOf t)

/-- Modelled from the spec (§4.1 step 3): "for each mapping, attempt to
decrement the referenced InventoryItem's quantity by (mapping.quantity_required
× line.quantity), conditioned on current quantity being at least that
amount. If the conditional decrement affects zero rows (insufficient stock,
or the inventory row vanished), abort". The spec speaks of "the referenced
InventoryItem", so this definition locates that row, checks sufficiency and
decrements it; the inventory table is otherwise untouched. -/
def specConditionalDecrement (inv : List InventoryRow) (invId : Int) (amt : Int) :
    Option (List InventoryRow) :=
  match inv.find? (fun row => decide (row.id = invId)) with
  | none => none
  | some row =>
    if amt ≤ row.quantity then
      some (inv.map (fun r =>
        if r.id = invId then { r with quantity := r.quantity - amt } else r))
    else none

/-- Modelled from the spec (§4.1 step 3): "look up all MenuInventoryMapping
rows for that menu item" and deduct them one after the other, aborting at
the first failed conditional decrement. -/
def specDeductLine (maps : List MappingRow) (line : ReqItem)
    (inv : List InventoryRow) : Option (List InventoryRow) :=
  (maps.filter (fun m => m.menu_item_id == line.menu_item_id)).foldlM
    (fun acc m => specConditionalDecrement acc m.inventory_item_id
      (m.quantity_required * line.quantity)) inv

/-- Modelled from the spec (§4.1 step 3 and the ordering policy of §4.1):
"inventory lines are processed in the same order the menu items were listed
in the request; first insufficient-stock line encountered aborts
immediately"; "Menu items with no mapping rows consume no inventory". -/
def specDeduct (maps : List MappingRow) (inv : List InventoryRow)
    (items : List ReqItem) : Option (List InventoryRow) :=
  items.foldlM (fun acc line => specDeductLine maps line acc) inv

/-- Two concurrent order placements each requesting `amt` of the same
scarce ingredient. Per the spec's concurrency model (§5) the store is the
only serialization point and each compare-and-decrement — the single
`UPDATE ... WHERE id = ? AND quantity >= ?` of server.js:418 — executes
atomically, so the interleavings of the two units of work are exactly the
two serial orders of their decrements; `firstIsA` selects which request's
decrement the store executes first. A request's inventory step succeeds
exactly when its own update affected a row. Returns (did A succeed, did B
succeed, resulting inventory table). -/
def raceLastUnit (inv : List InventoryRow) (invId : Int) (amt : Int)
    (firstIsA : Bool) : Bool × Bool × List InventoryRow :=
  let r1 := runUpdateInventory inv invId amt
  let r2 := runUpdateInventory r1.1 invId amt
  if firstIsA then (r1.2 != 0, r2.2 != 0, r2.1)
  else (r2.2 != 0, r1.2 != 0, r2.1)

-- Sanity fixtures (the §8 seed scenario: Flour 50 kg, mapping 0.2 kg per
-- unit of menu item 1, order of 2 units at price 250).
def dbSeed : DB :=
  { orders := [], order_items := [], payments := [],
    inventory := [{ id := 1, item_name := "Flour", quantity := 5000 }],
    menu_inventory_mapping := [{ menu_item_id := 1, inventory_item_id := 1, quantity_required := 20 }],
    nextOrderId := 1 }

def reqSeed : OrderRequest :=
  { customer_name := "A", customer_phone := "123", customer_email := none,
    items := [{ menu_item_id := 1, quantity := 2, price := 25000 }],
    total_amount := 50000, payment_method := none }

/-- Empty database (no seed rows, fresh auto-increment counter). -/
def db0 : DB :=
  { orders := [], order_items := [], payments := [], inventory := [],
    menu_inventory_mapping := [], nextOrderId := 1 }

/-- Request whose only line violates the per-line contract (zero quantity,
negative price). -/
def reqBadItems : OrderRequest :=
  { customer_name := "A", customer_phone := "123", customer_email := none,
    items := [{ menu_item_id := 1, quantity := 0, price := -500 }],
    total_amount := 0, payment_method := none }

/-- The seed request with a customer email supplied. -/
def reqSeedEmail : OrderRequest :=
  { reqSeed with customer_email := some "a@b.com" }

/-- Request with one line at price 250.00 but a caller-supplied total of
999.00. -/
def reqMismatch : OrderRequest :=
  { customer_name := "A", customer_phone := "123", customer_email := none,
    items := [{ menu_item_id := 1, quantity := 1, price := 25000 }],
    total_amount := 99900, payment_method := none }

/-- Request with an empty items list. -/
def reqEmpty : OrderRequest :=
  { customer_name := "A", customer_phone := "123", customer_email := none,
    items := [], total_amount := 0, payment_method := none }

/-- Store in the low-stock scenario of §8: Flour at 0.30 kg held as
inventory id 7, consumed at 0.20 kg per unit of menu item 7. -/
def dbLowStock : DB :=
  { orders := [], order_items := [], payments := [],
    inventory := [{ id := 7, item_name := "Flour", quantity := 30 }],
    menu_inventory_mapping :=
      [{ menu_item_id := 7, inventory_item_id := 7, quantity_required := 20 }],
    nextOrderId := 1 }

/-- Two units of menu item 7 (needs 0.40 kg of Flour). -/
def reqLowStock : OrderRequest :=
  { customer_name := "B", customer_phone := "456", customer_email := none,
    items := [{ menu_item_id := 7, quantity := 2, price := 25000 }],
    total_amount := 50000, payment_method := none }

/-- A scarce ingredient: exactly one unit (1.00) left. -/
def rowScarce : InventoryRow := { id := 5, item_name := "Truffle", quantity := 100 }

/-- Inventory holding only the scarce ingredient. -/
def invScarce : List InventoryRow := [rowScarce]

example : (placeOrder dbSeed reqSeed true true).2.1 = Resp.created 1 := by decide
example : (placeOrder dbSeed reqSeed true true).1.inventory
    = [{ id := 1, item_name := "Flour", quantity := 4960 }] := by decide
example : (placeOrder dbLowStock reqLowStock true true).2.1
    = Resp.serverError "Insufficient inventory" := by decide

-- Unfolding lemmas for each terminal branch of the handler.

theorem placeOrder_validation_eq (db : DB) (r : OrderRequest) (bOk cOk : Bool)
    (m : String) (hv : validateOrder r = some m) :
    placeOrder db r bOk cOk = (db, Resp.validationError m, []) := by
  simp [placeOrder, hv]

theorem placeOrder_beginFail_eq (db : DB) (r : OrderRequest) (cOk : Bool)
    (hv : validateOrder r = none) :
    placeOrder db r false cOk
      = (db, Resp.serverError "Transaction failed", [Ev.beginTxn]) := by
  simp [placeOrder, hv]

theorem placeOrder_insufficient_eq (db : DB) (r : OrderRequest) (cOk : Bool)
    (hv : validateOrder r = none)
    (hd : (deductItems db.menu_inventory_mapping db.inventory r.items).2 = none) :
    placeOrder db r true cOk =
      (db, Resp.serverError "Insufficient inventory",
       [Ev.beginTxn, Ev.insertOrder, Ev.insertOrderItems]
         ++ (deductItems db.menu_inventory_mapping db.inventory r.items).1
         ++ [Ev.rollback]) := by
  simp [placeOrder, hv, hd]

theorem placeOrder_success_eq (db : DB) (r : OrderRequest) (cOk : Bool)
    (inv' : List InventoryRow) (hv : validateOrder r = none)
    (hd : (deductItems db.menu_inventory_mapping db.inventory r.items).2 = some inv') :
    placeOrder db r true cOk =
      if cOk then
        ({ orders := db.orders ++ [newOrderRow db r],
           order_items := db.order_items ++ newItemRows db r,
           payments := db.payments ++ [newPaymentRow db r],
           inventory := inv',
           menu_inventory_mapping := db.menu_inventory_mapping,
           nextOrderId := db.nextOrderId + 1 },
         Resp.created db.nextOrderId,
         [Ev.beginTxn, Ev.insertOrder, Ev.insertOrderItems]
           ++ (deductItems db.menu_inventory_mapping db.inventory r.items).1
           ++ [Ev.insertPayment] ++ emailEvents r ++ [Ev.commit true])
      else
        (db, Resp.serverError "Transaction commit failed",
         [Ev.beginTxn, Ev.insertOrder, Ev.insertOrderItems]
           ++ (deductItems db.menu_inventory_mapping db.inventory r.items).1
           ++ [Ev.insertPayment] ++ emailEvents r ++ [Ev.commit false, Ev.rollback]) := by
  cases cOk <;> simp [placeOrder, hv, hd]

theorem placeOrder_created_inv (db : DB) (r : OrderRequest) (bOk cOk : Bool)
    (oid : Nat) (h : (placeOrder db r bOk cOk).2.1 = Resp.created oid) :
    validateOrder r = none ∧ bOk = true ∧ cOk = true ∧ oid = db.nextOrderId ∧
      ∃ inv', (deductItems db.menu_inventory_mapping db.inventory r.items).2
        = some inv' := by
  cases hv : validateOrder r with
  | some m =>
    rw [placeOrder_validation_eq db r bOk cOk m hv] at h
    exact absurd h (by simp)
  | none =>
    cases bOk with
    | false =>
      rw [placeOrder_beginFail_eq db r cOk hv] at h
      exact absurd h (by simp)
    | true =>
      cases hd : (deductItems db.menu_inventory_mapping db.inventory r.items).2 with
      | none =>
        rw [placeOrder_insufficient_eq db r cOk hv hd] at h
        exact absurd h (by simp)
      | some inv' =>
        rw [placeOrder_success_eq db r cOk inv' hv hd] at h
        cases cOk with
        | false => exact absurd h (by simp)
        | true =>
          simp only [if_true] at h
          exact ⟨rfl, rfl, rfl, (Resp.created.injEq _ _ |>.mp h).symm, inv', rfl⟩

/-- C1: every order placement that fails — whether at validation, at
beginTransaction, at an insufficient inventory decrement, or at commit —
returns an error response and leaves all four tables (orders, order_items,
payments, inventory) exactly as they were before the request: zero rows
added and no inventory quantity changed, with no partial state visible. -/
theorem C1_failure_full_rollback (db : DB) (r : OrderRequest) (bOk cOk : Bool) :
    (∃ oid, (placeOrder db r bOk cOk).2.1 = Resp.created oid) ∨
    ((∃ m, (placeOrder db r bOk cOk).2.1 = Resp.validationError m ∨
           (placeOrder db r bOk cOk).2.1 = Resp.serverError m) ∧
     (placeOrder db r bOk cOk).1.orders = db.orders ∧
     (placeOrder db r bOk cOk).1.order_items = db.order_items ∧
     (placeOrder db r bOk cOk).1.payments = db.payments ∧
     (placeOrder db r bOk cOk).1.inventory = db.inventory) := by
  cases hv : validateOrder r with
  | some m =>
    right
    rw [placeOrder_validation_eq db r bOk cOk m hv]
    exact ⟨⟨m, Or.inl rfl⟩, rfl, rfl, rfl, rfl⟩
  | none =>
    cases bOk with
    | false =>
      right
      rw [placeOrder_beginFail_eq db r cOk hv]
      exact ⟨⟨_, Or.inr rfl⟩, rfl, rfl, rfl, rfl⟩
    | true =>
      cases hd : (deductItems db.menu_inventory_mapping db.inventory r.items).2 with
      | none =>
        right
        rw [placeOrder_insufficient_eq db r cOk hv hd]
        exact ⟨⟨_, Or.inr rfl⟩, rfl, rfl, rfl, rfl⟩
      | some inv' =>
        cases cOk with
        | true =>
          left
          rw [placeOrder_success_eq db r true inv' hv hd]
          exact ⟨db.nextOrderId, rfl⟩
        | false =>
          right
          rw [placeOrder_success_eq db r false inv' hv hd]
          exact ⟨⟨_, Or.inr rfl⟩, rfl, rfl, rfl, rfl⟩

/-- C9: an order placement whose items list is empty fails validation: the
handler returns 400, performs no store events at all, and the store is
untouched. -/
theorem C9_empty_items_no_store_access (db : DB) (r : OrderRequest)
    (bOk cOk : Bool) (h : r.items = []) :
    (placeOrder db r bOk cOk).2.2 = [] ∧ (placeOrder db r bOk cOk).1 = db ∧
      ∃ m, (placeOrder db r bOk cOk).2.1 = Resp.validationError m := by
  have hv : ∃ m, validateOrder r = some m := by
    unfold validateOrder
    split_ifs with h1 h2 h3 h4 h5
    · exact ⟨_, rfl⟩
    · exact ⟨_, rfl⟩
    · exact ⟨_, rfl⟩
    · exact ⟨_, rfl⟩
    · exact ⟨_, rfl⟩
    · exact absurd (by simp [h]) h5
  obtain ⟨m, hv⟩ := hv
  rw [placeOrder_validation_eq db r bOk cOk m hv]
  exact ⟨rfl, rfl, m, rfl⟩

/-- C9 witness: the concrete empty-items request against the empty store. -/
theorem C9_witness :
    (placeOrder db0 reqEmpty true true).2.2 = [] ∧
      (placeOrder db0 reqEmpty true true).1 = db0 ∧
      ∃ m, (placeOrder db0 reqEmpty true true).2.1 = Resp.validationError m :=
  C9_empty_items_no_store_access db0 reqEmpty true true rfl

-- Non-negativity is preserved by the guarded decrement and both loops.

theorem runUpdateInventory_nonneg (inv : List InventoryRow) (invId : Int)
    (amt : Int) (h : ∀ row ∈ inv, 0 ≤ row.quantity) :
    ∀ row ∈ (runUpdateInventory inv invId amt).1, 0 ≤ row.quantity := by
  intro row hrow
  rcases List.mem_map.mp hrow with ⟨r0, hr0, rfl⟩
  by_cases hc : r0.id = invId ∧ amt ≤ r0.quantity
  · rw [if_pos hc]
    exact sub_nonneg.mpr hc.2
  · rw [if_neg hc]
    exact h r0 hr0

theorem deductMappings_nonneg (qty : Int) (ms : List MappingRow) :
    ∀ inv : List InventoryRow, (∀ row ∈ inv, 0 ≤ row.quantity) →
      ∀ inv', (deductMappings inv qty ms).2 = some inv' →
        ∀ row ∈ inv', 0 ≤ row.quantity := by
  induction ms with
  | nil =>
    intro inv h inv' he
    simp only [deductMappings] at he
    obtain rfl : inv = inv' := by simpa using he
    exact h
  | cons m ms ih =>
    intro inv h inv' he
    simp only [deductMappings] at he
    split at he
    · simp at he
    · exact ih _ (runUpdateInventory_nonneg _ _ _ h) inv' he

theorem deductItems_nonneg (maps : List MappingRow) (items : List ReqItem) :
    ∀ inv : List InventoryRow, (∀ row ∈ inv, 0 ≤ row.quantity) →
      ∀ inv', (deductItems maps inv items).2 = some inv' →
        ∀ row ∈ inv', 0 ≤ row.quantity := by
  induction items with
  | nil =>
    intro inv h inv' he
    simp only [deductItems] at he
    obtain rfl : inv = inv' := by simpa using he
    exact h
  | cons it its ih =>
    intro inv h inv' he
    simp only [deductItems] at he
    split at he
    · simp at he
    · next inv'' hsome =>
      exact ih inv'' (deductMappings_nonneg _ _ inv h inv'' hsome) inv' he

/-- C2: for every order placement — successful or failed — no inventory
quantity ever becomes negative: the decrement is guarded by the current
quantity being at least the decremented amount, and failed placements roll
back to the untouched table. -/
theorem C2_inventory_never_negative (db : DB) (r : OrderRequest)
    (bOk cOk : Bool) (h : ∀ row ∈ db.inventory, 0 ≤ row.quantity) :
    ∀ row ∈ (placeOrder db r bOk cOk).1.inventory, 0 ≤ row.quantity := by
  cases hv : validateOrder r with
  | some m => rw [placeOrder_validation_eq db r bOk cOk m hv]; exact h
  | none =>
    cases bOk with
    | false => rw [placeOrder_beginFail_eq db r cOk hv]; exact h
    | true =>
      cases hd : (deductItems db.menu_inventory_mapping db.inventory r.items).2 with
      | none => rw [placeOrder_insufficient_eq db r cOk hv hd]; exact h
      | some inv' =>
        rw [placeOrder_success_eq db r cOk inv' hv hd]
        cases cOk with
        | false => exact h
        | true =>
          simp only [if_true]
          exact deductItems_nonneg db.menu_inventory_mapping r.items
            db.inventory h inv' hd

/-- C2 witness: the seed scenario's non-negative store stays non-negative
through a successful placement. -/
theorem C2_witness :
    (∀ row ∈ dbSeed.inventory, 0 ≤ row.quantity) ∧
      ∀ row ∈ (placeOrder dbSeed reqSeed true true).1.inventory,
        0 ≤ row.quantity :=
  ⟨by decide, C2_inventory_never_negative dbSeed reqSeed true true (by decide)⟩

-- The conditional UPDATE agrees with the spec's per-item description when
-- inventory ids are unique (the table's primary key).

theorem runUpdateInventory_map_id (inv : List InventoryRow) (invId : Int)
    (amt : Int) :
    (runUpdateInventory inv invId amt).1.map (fun r => r.id)
      = inv.map (fun r => r.id) := by
  unfold runUpdateInventory
  rw [List.map_map]
  exact List.map_congr_left (fun r _ => by
    show (if r.id = invId ∧ amt ≤ r.quantity then _ else r).id = r.id
    split <;> rfl)

theorem runUpdateInventory_eq_spec (inv : List InventoryRow) (invId : Int)
    (amt : Int) (h : (inv.map (fun r => r.id)).Nodup) :
    specConditionalDecrement inv invId amt
      = if (runUpdateInventory inv invId amt).2 = 0 then none
        else some (runUpdateInventory inv invId amt).1 := by
  unfold specConditionalDecrement runUpdateInventory
  cases hf : inv.find? (fun row => decide (row.id = invId)) with
  | none =>
    dsimp only
    have hall : ∀ row ∈ inv, ¬(row.id = invId) := by
      intro row hrow
      simpa using List.find?_eq_none.mp hf row hrow
    have hfil : inv.filter (fun row => decide (row.id = invId ∧ amt ≤ row.quantity)) = [] := by
      rw [List.filter_eq_nil_iff]
      intro a ha
      simp only [decide_eq_true_eq, not_and]
      exact fun hc _ => hall a ha hc
    rw [hfil]
    simp
  | some row =>
    dsimp only
    have hrow_mem := List.mem_of_find?_eq_some hf
    have hrow_id : row.id = invId := by simpa using List.find?_some hf
    have huniq : ∀ a ∈ inv, a.id = invId → a = row := fun a ha haid =>
      List.inj_on_of_nodup_map h ha hrow_mem (haid.trans hrow_id.symm)
    by_cases hs : amt ≤ row.quantity
    · rw [if_pos hs]
      have hne : inv.filter (fun a => decide (a.id = invId ∧ amt ≤ a.quantity)) ≠ [] := by
        intro hnil
        have := List.filter_eq_nil_iff.mp hnil row hrow_mem
        simp [hrow_id, hs] at this
      have hlen : ¬((inv.filter (fun a => decide (a.id = invId ∧ amt ≤ a.quantity))).length = 0) := by
        simpa [List.length_eq_zero] using hne
      rw [if_neg hlen]
      congr 1
      refine List.map_congr_left (fun a ha => ?_)
      by_cases haid : a.id = invId
      · have haeq : a = row := huniq a ha haid
        subst haeq
        rw [if_pos haid, if_pos ⟨haid, hs⟩]
      · rw [if_neg haid, if_neg (fun hc => haid hc.1)]
    · rw [if_neg hs]
      have hfil : inv.filter (fun a => decide (a.id = invId ∧ amt ≤ a.quantity)) = [] := by
        rw [List.filter_eq_nil_iff]
        intro a ha
        simp only [decide_eq_true_eq, not_and]
        intro haid hle
        exact hs (by rwa [huniq a ha haid] at hle)
      rw [hfil]
      simp

theorem deductMappings_map_id (qty : Int) (ms : List MappingRow) :
    ∀ inv inv', (deductMappings inv qty ms).2 = some inv' →
      inv'.map (fun r => r.id) = inv.map (fun r => r.id) := by
  induction ms with
  | nil =>
    intro inv inv' he
    obtain rfl : inv = inv' := by simpa [deductMappings] using he
    rfl
  | cons m ms ih =>
    intro inv inv' he
    simp only [deductMappings] at he
    split at he
    · simp at he
    · exact (ih _ _ he).trans (runUpdateInventory_map_id inv m.inventory_item_id
        (m.quantity_required * qty))

theorem deductMappings_eq_specFold (qty : Int) (ms : List MappingRow) :
    ∀ inv : List InventoryRow, (inv.map (fun r => r.id)).Nodup →
      (deductMappings inv qty ms).2
        = ms.foldlM (fun acc m => specConditionalDecrement acc m.inventory_item_id
            (m.quantity_required * qty)) inv := by
  induction ms with
  | nil => intro inv _; simp [deductMappings]
  | cons m ms ih =>
    intro inv h
    rw [List.foldlM_cons,
       runUpdateInventory_eq_spec inv m.inventory_item_id (m.quantity_required * qty) h]
    by_cases hz : (runUpdateInventory inv m.inventory_item_id (m.quantity_required * qty)).2 = 0
    · rw [if_pos hz]
      simp only [deductMappings]
      rw [if_pos hz]
      simp
    · rw [if_neg hz]
      simp only [deductMappings]
      rw [if_neg hz]
      have hnodup2 : (((runUpdateInventory inv m.inventory_item_id
          (m.quantity_required * qty)).1).map (fun r => r.id)).Nodup := by
        rw [runUpdateInventory_map_id]
        exact h
      simpa using ih _ hnodup2

/-- C3: the inventory deduction loop processes the requested lines in
request order; for each line all of its mapping rows are looked up and each
referenced inventory quantity is decremented by quantity_required ×
line.quantity exactly when the current quantity suffices; a conditional
decrement affecting zero rows aborts the whole run immediately, and a menu
item with no mapping rows consumes nothing and is no error. Formally, the
loop translated from the source (`deductItems`) computes the same result as
the deduction written from the spec's words (`specDeduct`), whenever
inventory ids are unique (the table's primary key). -/
theorem C3_deduction_matches_spec (maps : List MappingRow)
    (inv : List InventoryRow) (items : List ReqItem)
    (h : (inv.map (fun r => r.id)).Nodup) :
    (deductItems maps inv items).2 = specDeduct maps inv items := by
  induction items generalizing inv with
  | nil => simp [deductItems, specDeduct]
  | cons it its ih =>
    have hline : specDeductLine maps it inv
        = (deductMappings inv it.quantity
            (maps.filter (fun m => m.menu_item_id == it.menu_item_id))).2 := by
      unfold specDeductLine
      exact (deductMappings_eq_specFold it.quantity _ inv h).symm
    unfold specDeduct
    rw [List.foldlM_cons]
    simp only [deductItems]
    cases hd : (deductMappings inv it.quantity
        (maps.filter (fun m => m.menu_item_id == it.menu_item_id))).2 with
    | none =>
      rw [hline, hd]
      simp
    | some inv2 =>
      rw [hline, hd]
      have hnodup2 : (inv2.map (fun r => r.id)).Nodup := by
        rw [deductMappings_map_id it.quantity _ inv inv2 hd]
        exact h
      simpa using ih inv2 hnodup2

/-- C3 witness: the seed scenario (unique inventory ids) where both
formulations deduct 0.4 kg of Flour. -/
theorem C3_witness :
    (dbSeed.inventory.map (fun r => r.id)).Nodup ∧
      (deductItems dbSeed.menu_inventory_mapping dbSeed.inventory reqSeed.items).2
        = specDeduct dbSeed.menu_inventory_mapping dbSeed.inventory reqSeed.items :=
  ⟨by decide, C3_deduction_matches_spec dbSeed.menu_inventory_mapping
    dbSeed.inventory reqSeed.items (by decide)⟩

-- The race over the conditional UPDATE.

theorem runUpdateInventory_snd_eq_zero_iff (inv : List InventoryRow)
    (invId : Int) (amt : Int) :
    (runUpdateInventory inv invId amt).2 = 0
      ↔ ∀ row ∈ inv, ¬(row.id = invId ∧ amt ≤ row.quantity) := by
  unfold runUpdateInventory
  dsimp only
  rw [List.length_eq_zero, List.filter_eq_nil_iff]
  simp

/-- C10: two concurrent order placements each requesting the last unit of a
scarce ingredient. The store serializes the two atomic compare-and-
decrement updates (the single conditional UPDATE of server.js:418 — not a
read-then-write), so the possible interleavings are the two serial orders,
selected by `firstIsA`. In both, exactly one request's update succeeds and
the other's affects zero rows (which fails that request with the
insufficient-inventory error), and the ingredient's stored quantity never
goes negative. -/
theorem C10_race_exactly_one_succeeds (inv : List InventoryRow) (invId : Int)
    (amt : Int) (row0 : InventoryRow) (firstIsA : Bool)
    (hfilter : rowsWithId inv invId = [row0])
    (h1 : amt ≤ row0.quantity) (h2 : row0.quantity < amt + amt) :
    ((raceLastUnit inv invId amt firstIsA).1
        ≠ (raceLastUnit inv invId amt firstIsA).2.1) ∧
      ∀ row ∈ (raceLastUnit inv invId amt firstIsA).2.2,
        row.id = invId → 0 ≤ row.quantity := by
  have hmem0 : row0 ∈ rowsWithId inv invId := by
    rw [hfilter]; exact List.mem_singleton_self row0
  have hmem : row0 ∈ inv := (List.mem_filter.mp hmem0).1
  have hid : row0.id = invId := by simpa using (List.mem_filter.mp hmem0).2
  have huniq : ∀ a ∈ inv, a.id = invId → a = row0 := by
    intro a ha haid
    have hmema : a ∈ rowsWithId inv invId :=
      List.mem_filter.mpr ⟨ha, by simpa using haid⟩
    rw [hfilter] at hmema
    simpa using hmema
  have haff1 : (runUpdateInventory inv invId amt).2 ≠ 0 := by
    rw [ne_eq, runUpdateInventory_snd_eq_zero_iff]
    push_neg
    exact ⟨row0, hmem, hid, h1⟩
  have hrow1 : ∀ row ∈ (runUpdateInventory inv invId amt).1, row.id = invId →
      row = { row0 with quantity := row0.quantity - amt } := by
    intro row hrow hrid
    rcases List.mem_map.mp hrow with ⟨a, ha, rfl⟩
    by_cases hc : a.id = invId ∧ amt ≤ a.quantity
    · rw [if_pos hc] at hrid ⊢
      have haeq : a = row0 := huniq a ha hc.1
      subst haeq
      rfl
    · rw [if_neg hc] at hrid ⊢
      have haeq : a = row0 := huniq a ha hrid
      subst haeq
      exact absurd ⟨hid, h1⟩ hc
  have haff2 : (runUpdateInventory (runUpdateInventory inv invId amt).1 invId amt).2 = 0 := by
    rw [runUpdateInventory_snd_eq_zero_iff]
    rintro row hrow ⟨hrid, hle⟩
    have hreq := hrow1 row hrow hrid
    rw [hreq] at hle
    dsimp at hle
    omega
  have hnn : ∀ row ∈ (runUpdateInventory (runUpdateInventory inv invId amt).1 invId amt).1,
      row.id = invId → 0 ≤ row.quantity := by
    intro row hrow hrid
    rcases List.mem_map.mp hrow with ⟨b, hb, rfl⟩
    have hbid : b.id = invId := by
      by_cases hc : b.id = invId ∧ amt ≤ b.quantity
      · rw [if_pos hc] at hrid; exact hc.1
      · rw [if_neg hc] at hrid; exact hrid
    have hbeq := hrow1 b hb hbid
    subst hbeq
    have hc2 : ¬(({ row0 with quantity := row0.quantity - amt } : InventoryRow).id = invId ∧
        amt ≤ ({ row0 with quantity := row0.quantity - amt } : InventoryRow).quantity) := by
      rintro ⟨-, hle⟩
      dsimp at hle
      omega
    rw [if_neg hc2]
    dsimp
    omega
  refine ⟨?_, ?_⟩
  · unfold raceLastUnit
    cases firstIsA <;> simp [haff1, haff2]
  · intro row hrow hrid
    have hmem2 : row ∈ (runUpdateInventory (runUpdateInventory inv invId amt).1 invId amt).1 := by
      unfold raceLastUnit at hrow
      cases firstIsA <;> simpa using hrow
    exact hnn row hmem2 hrid

/-- C10 witness: one unit of Truffle, two requests for that unit, both
serialization orders. -/
theorem C10_witness :
    (rowsWithId invScarce 5 = [rowScarce] ∧ (100 : Int) ≤ rowScarce.quantity ∧
       rowScarce.quantity < 100 + 100) ∧
      (((raceLastUnit invScarce 5 100 true).1
          ≠ (raceLastUnit invScarce 5 100 true).2.1) ∧
        ∀ row ∈ (raceLastUnit invScarce 5 100 true).2.2,
          row.id = 5 → 0 ≤ row.quantity) :=
  ⟨⟨by decide, by decide, by decide⟩,
    C10_race_exactly_one_succeeds invScarce 5 100 rowScarce true
      (by decide) (by decide) (by decide)⟩

-- Validation: what the chain checks and what it never looks at.

/-- C4 counterexample: a request whose only line has quantity 0 and a
negative price — violating the per-entry contract (positive integer
quantity, non-negative price) — passes the validator chain and reaches the
store: the handler runs the whole transaction and creates the order
instead of rejecting the input. -/
theorem C4_counterexample :
    (∃ it ∈ reqBadItems.items, ¬(0 < it.quantity ∧ 0 ≤ it.price)) ∧
      validateOrder reqBadItems = none ∧
      (placeOrder db0 reqBadItems true true).2.1 = Resp.created 1 ∧
      (placeOrder db0 reqBadItems true true).2.2 ≠ [] := by
  decide

/-- C4 (amended): the validator chain checks exactly the top-level fields —
customer_name and customer_phone non-empty, customer_email syntactically
valid when present, total_amount non-negative, items a non-empty array —
and any input violating one of these is rejected with a 400 validation
error before any store access; the entries of items (menu reference,
quantity, price) are never validated. -/
theorem C4_amended_validation (db : DB) (r : OrderRequest) (bOk cOk : Bool) :
    (validateOrder r = none ↔
      (r.customer_name ≠ "" ∧ r.customer_phone ≠ "" ∧
        (∀ e, r.customer_email = some e → isEmail e = true) ∧
        0 ≤ r.total_amount ∧ r.items ≠ [])) ∧
    ∀ m, validateOrder r = some m →
      (placeOrder db r bOk cOk).1 = db ∧
        (placeOrder db r bOk cOk).2.1 = Resp.validationError m ∧
        (placeOrder db r bOk cOk).2.2 = [] := by
  constructor
  · cases hmail : r.customer_email with
    | none =>
      unfold validateOrder
      rw [hmail]
      split_ifs with hA hB hC hD hE
      · simp [hA]
      · simp [hB]
      · simp at hC
      · simp [not_le.mpr hD]
      · simp [List.length_eq_zero.mp (Nat.lt_one_iff.mp hE)]
      · have hitems : r.items ≠ [] := by
          intro hnil
          rw [hnil] at hE
          simp at hE
        simp [hA, hB, not_lt.mp hD, hitems]
    | some e =>
      unfold validateOrder
      rw [hmail]
      split_ifs with hA hB hC hD hE
      · simp [hA]
      · simp [hB]
      · rw [Bool.not_eq_true'] at hC
        simp [hC]
      · simp [not_le.mpr hD]
      · simp [List.length_eq_zero.mp (Nat.lt_one_iff.mp hE)]
      · have hitems : r.items ≠ [] := by
          intro hnil
          rw [hnil] at hE
          simp at hE
        have hmailok : isEmail e = true := by
          by_contra hno
          exact hC (by simp [Bool.not_eq_true', Bool.eq_false_iff.mpr hno])
        simp [hA, hB, not_lt.mp hD, hitems, hmailok]
  · intro m hv
    rw [placeOrder_validation_eq db r bOk cOk m hv]
    exact ⟨rfl, rfl, rfl⟩

/-- C4 witness: the empty-items request is rejected before store access. -/
theorem C4_amended_witness :
    (placeOrder db0 reqEmpty true true).1 = db0 ∧
      (placeOrder db0 reqEmpty true true).2.1
        = Resp.validationError "Invalid value" ∧
      (placeOrder db0 reqEmpty true true).2.2 = [] :=
  (C4_amended_validation db0 reqEmpty true true).2 "Invalid value" (by decide)

-- The notification hook: attempted inside the transaction body.

theorem deductMappings_no_email (qty : Int) (ms : List MappingRow) :
    ∀ (inv : List InventoryRow) (e : String),
      Ev.emailAttempt e ∉ (deductMappings inv qty ms).1 := by
  induction ms with
  | nil => intro inv e; simp [deductMappings]
  | cons m ms ih =>
    intro inv e
    simp only [deductMappings]
    split
    · simp
    · simp only [List.mem_cons]
      rintro (h | h)
      · exact Ev.noConfusion h
      · exact ih _ e h

theorem deductItems_no_email (maps : List MappingRow) (items : List ReqItem) :
    ∀ (inv : List InventoryRow) (e : String),
      Ev.emailAttempt e ∉ (deductItems maps inv items).1 := by
  induction items with
  | nil => intro inv e; simp [deductItems]
  | cons it its ih =>
    intro inv e
    simp only [deductItems]
    split
    · simp only [List.mem_cons]
      rintro (h | h)
      · exact Ev.noConfusion h
      · exact deductMappings_no_email it.quantity _ inv e h
    · simp only [List.mem_cons, List.mem_append]
      rintro (h | h | h)
      · exact Ev.noConfusion h
      · exact deductMappings_no_email it.quantity _ inv e h
      · exact ih _ e h

/-- C5 counterexample: with the seed store and an email-carrying request,
the store's commit fails and the transaction is rolled back with a 500 —
yet the notification was already attempted, because the send happens inside
the transaction body before `db.commit`, contradicting
after-and-only-after-a-successful-commit. -/
theorem C5_counterexample :
    (placeOrder dbSeed reqSeedEmail true false).2.1
        = Resp.serverError "Transaction commit failed" ∧
      Ev.rollback ∈ (placeOrder dbSeed reqSeedEmail true false).2.2 ∧
      Ev.emailAttempt "a@b.com" ∈ (placeOrder dbSeed reqSeedEmail true false).2.2 := by
  decide

/-- C5 (amended): the notification attempt happens inside the transaction
body, after the payment insert and before commit: an attempt occurs if and
only if validation passed, the transaction began, the inventory deduction
succeeded and customer_email was supplied — independently of the commit's
outcome; whenever it occurs, the trace continues with the commit event
after it. -/
theorem C5_amended_email_before_commit (db : DB) (r : OrderRequest)
    (bOk cOk : Bool) (e : String) :
    (Ev.emailAttempt e ∈ (placeOrder db r bOk cOk).2.2 ↔
      (validateOrder r = none ∧ bOk = true ∧ r.customer_email = some e ∧
        (deductItems db.menu_inventory_mapping db.inventory r.items).2 ≠ none)) ∧
    (Ev.emailAttempt e ∈ (placeOrder db r bOk cOk).2.2 →
      ∃ t1 t2, (placeOrder db r bOk cOk).2.2
        = t1 ++ emailEvents r ++ (Ev.commit cOk :: t2)) := by
  cases hv : validateOrder r with
  | some m =>
    rw [placeOrder_validation_eq db r bOk cOk m hv]
    simp
  | none =>
    cases bOk with
    | false =>
      rw [placeOrder_beginFail_eq db r cOk hv]
      simp
    | true =>
      cases hd : (deductItems db.menu_inventory_mapping db.inventory r.items).2 with
      | none =>
        rw [placeOrder_insufficient_eq db r cOk hv hd]
        have hne := deductItems_no_email db.menu_inventory_mapping r.items db.inventory e
        have hnomem : Ev.emailAttempt e ∉
            ([Ev.beginTxn, Ev.insertOrder, Ev.insertOrderItems]
              ++ (deductItems db.menu_inventory_mapping db.inventory r.items).1
              ++ [Ev.rollback]) := by
          simp [List.mem_append, hne]
        constructor
        · constructor
          · intro hm
            exact absurd hm hnomem
          · rintro ⟨-, -, -, habs⟩
            exact absurd rfl habs
        · intro hm
          exact absurd hm hnomem
      | some inv2 =>
        rw [placeOrder_success_eq db r cOk inv2 hv hd]
        have hne := deductItems_no_email db.menu_inventory_mapping r.items db.inventory e
        have hmail : Ev.emailAttempt e ∈ emailEvents r ↔ r.customer_email = some e := by
          unfold emailEvents
          cases hm : r.customer_email with
          | none => simp
          | some e2 => simp [eq_comm]
        cases cOk with
        | true =>
          simp only [if_true]
          have hmem_iff : Ev.emailAttempt e ∈
              ([Ev.beginTxn, Ev.insertOrder, Ev.insertOrderItems]
                ++ (deductItems db.menu_inventory_mapping db.inventory r.items).1
                ++ [Ev.insertPayment] ++ emailEvents r ++ [Ev.commit true])
              ↔ r.customer_email = some e := by
            simp [List.mem_append, hne, hmail]
          constructor
          · rw [hmem_iff]
            constructor
            · intro hm
              exact ⟨by trivial, by trivial, hm, by simp⟩
            · rintro ⟨-, -, hm, -⟩
              exact hm
          · intro hmem
            exact ⟨[Ev.beginTxn, Ev.insertOrder, Ev.insertOrderItems]
              ++ (deductItems db.menu_inventory_mapping db.inventory r.items).1
              ++ [Ev.insertPayment], [], by simp⟩
        | false =>
          simp only [Bool.false_eq_true, if_false]
          have hmem_iff : Ev.emailAttempt e ∈
              ([Ev.beginTxn, Ev.insertOrder, Ev.insertOrderItems]
                ++ (deductItems db.menu_inventory_mapping db.inventory r.items).1
                ++ [Ev.insertPayment] ++ emailEvents r
                ++ [Ev.commit false, Ev.rollback])
              ↔ r.customer_email = some e := by
            simp [List.mem_append, hne, hmail]
          constructor
          · rw [hmem_iff]
            constructor
            · intro hm
              exact ⟨by trivial, by trivial, hm, by simp⟩
            · rintro ⟨-, -, hm, -⟩
              exact hm
          · intro hmem
            exact ⟨[Ev.beginTxn, Ev.insertOrder, Ev.insertOrderItems]
              ++ (deductItems db.menu_inventory_mapping db.inventory r.items).1
              ++ [Ev.insertPayment], [Ev.rollback], by simp⟩

/-- C5 witness: the attempt for the seed request with an email, under a
failing commit. -/
theorem C5_amended_witness :
    Ev.emailAttempt "a@b.com" ∈ (placeOrder dbSeed reqSeedEmail true false).2.2 :=
  (C5_amended_email_before_commit dbSeed reqSeedEmail true false "a@b.com").1.mpr
    ⟨by decide, rfl, rfl, by decide⟩

-- Row lookups after a successful insert of the new order's rows.

theorem ordersWithId_append_new (db : DB) (r : OrderRequest)
    (ho : ∀ o ∈ db.orders, o.id ≠ db.nextOrderId) :
    ordersWithId (db.orders ++ [newOrderRow db r]) db.nextOrderId
      = [newOrderRow db r] := by
  unfold ordersWithId
  rw [List.filter_append]
  have h1 : db.orders.filter (fun o => decide (o.id = db.nextOrderId)) = [] := by
    rw [List.filter_eq_nil_iff]
    intro o hmem
    simpa using ho o hmem
  rw [h1]
  simp [newOrderRow]

theorem itemsOfOrder_append_new (db : DB) (r : OrderRequest)
    (hi : ∀ i ∈ db.order_items, i.order_id ≠ db.nextOrderId) :
    itemsOfOrder (db.order_items ++ newItemRows db r) db.nextOrderId
      = newItemRows db r := by
  unfold itemsOfOrder
  rw [List.filter_append]
  have h1 : db.order_items.filter (fun i => decide (i.order_id = db.nextOrderId)) = [] := by
    rw [List.filter_eq_nil_iff]
    intro i hmem
    simpa using hi i hmem
  have h2 : (newItemRows db r).filter (fun i => decide (i.order_id = db.nextOrderId))
      = newItemRows db r := by
    rw [List.filter_eq_self]
    intro i hmem
    rcases List.mem_map.mp hmem with ⟨it, -, rfl⟩
    simp
  rw [h1, h2, List.nil_append]

theorem paymentsOfOrder_append_new (db : DB) (r : OrderRequest)
    (hp : ∀ p ∈ db.payments, p.order_id ≠ db.nextOrderId) :
    paymentsOfOrder (db.payments ++ [newPaymentRow db r]) db.nextOrderId
      = [newPaymentRow db r] := by
  unfold paymentsOfOrder
  rw [List.filter_append]
  have h1 : db.payments.filter (fun p => decide (p.order_id = db.nextOrderId)) = [] := by
    rw [List.filter_eq_nil_iff]
    intro p hmem
    simpa using hp p hmem
  rw [h1]
  simp [newPaymentRow]

/-- C6 counterexample: a committed order whose caller-supplied total
(999.00) differs from the sum over its OrderItem rows of quantity × price
(1 × 250.00 = 250.00): the handler never reconciles the two, so the
claimed invariant fails on this committed order. -/
theorem C6_counterexample :
    (placeOrder db0 reqMismatch true true).2.1 = Resp.created 1 ∧
      (ordersWithId (placeOrder db0 reqMismatch true true).1.orders 1).map
          (fun o => o.total_amount) = [99900] ∧
      ((itemsOfOrder (placeOrder db0 reqMismatch true true).1.order_items 1).map
          (fun i => i.quantity * i.price)).sum = 25000 ∧
      (99900 : Int) ≠ 25000 := by
  decide

/-- C6 (amended): for every committed order, total_amount is exactly the
caller-supplied total and the persisted OrderItem rows sum to the
caller-supplied lines' quantity × price; no reconciliation between the two
is performed, so the invariant sum = total holds only when the caller
already supplied a matching total. -/
theorem C6_amended_total_is_callers (db : DB) (r : OrderRequest)
    (bOk cOk : Bool) (oid : Nat)
    (ho : ∀ o ∈ db.orders, o.id ≠ db.nextOrderId)
    (hi : ∀ i ∈ db.order_items, i.order_id ≠ db.nextOrderId)
    (h : (placeOrder db r bOk cOk).2.1 = Resp.created oid) :
    (ordersWithId (placeOrder db r bOk cOk).1.orders oid).map
        (fun o => o.total_amount) = [r.total_amount] ∧
      ((itemsOfOrder (placeOrder db r bOk cOk).1.order_items oid).map
          (fun i => i.quantity * i.price)).sum
        = (r.items.map (fun it => it.quantity * it.price)).sum := by
  obtain ⟨hv, hb, hc, hoid, inv2, hd⟩ := placeOrder_created_inv db r bOk cOk oid h
  subst hb
  subst hc
  subst hoid
  rw [placeOrder_success_eq db r true inv2 hv hd]
  simp only [if_true]
  constructor
  · rw [ordersWithId_append_new db r ho]
    simp [newOrderRow]
  · rw [itemsOfOrder_append_new db r hi]
    unfold newItemRows
    rw [List.map_map]
    rfl

/-- C6 witness: the seed scenario's successful order, whose caller total
500.00 happens to match 2 × 250.00. -/
theorem C6_amended_witness :
    (ordersWithId (placeOrder dbSeed reqSeed true true).1.orders 1).map
        (fun o => o.total_amount) = [reqSeed.total_amount] ∧
      ((itemsOfOrder (placeOrder dbSeed reqSeed true true).1.order_items 1).map
          (fun i => i.quantity * i.price)).sum
        = (reqSeed.items.map (fun it => it.quantity * it.price)).sum :=
  C6_amended_total_is_callers dbSeed reqSeed true true 1
    (by decide) (by decide) (by decide)

/-- C7: every successful order placement persists exactly one OrderItem row
per requested line, each carrying the caller-supplied menu reference,
quantity and price (not re-read from the menu); the Order row is created
with status = pending and payment_status = pending; and exactly one
Payment row is created for the order, with status = pending and amount =
total_amount. -/
theorem C7_success_persists_rows (db : DB) (r : OrderRequest)
    (bOk cOk : Bool) (oid : Nat)
    (ho : ∀ o ∈ db.orders, o.id ≠ db.nextOrderId)
    (hi : ∀ i ∈ db.order_items, i.order_id ≠ db.nextOrderId)
    (hp : ∀ p ∈ db.payments, p.order_id ≠ db.nextOrderId)
    (h : (placeOrder db r bOk cOk).2.1 = Resp.created oid) :
    (itemsOfOrder (placeOrder db r bOk cOk).1.order_items oid).length
        = r.items.length ∧
      (itemsOfOrder (placeOrder db r bOk cOk).1.order_items oid).map
          (fun i => (i.menu_item_id, i.quantity, i.price))
        = r.items.map (fun it => (it.menu_item_id, it.quantity, it.price)) ∧
      ordersWithId (placeOrder db r bOk cOk).1.orders oid = [newOrderRow db r] ∧
      (newOrderRow db r).status = OrderStatus.pending ∧
      (newOrderRow db r).payment_status = PayStatus.pending ∧
      paymentsOfOrder (placeOrder db r bOk cOk).1.payments oid
        = [newPaymentRow db r] ∧
      (newPaymentRow db r).status = PayStatus.pending ∧
      (newPaymentRow db r).amount = r.total_amount := by
  obtain ⟨hv, hb, hc, hoid, inv2, hd⟩ := placeOrder_created_inv db r bOk cOk oid h
  subst hb
  subst hc
  subst hoid
  rw [placeOrder_success_eq db r true inv2 hv hd]
  simp only [if_true]
  refine ⟨?_, ?_, ?_, rfl, rfl, ?_, rfl, rfl⟩
  · rw [itemsOfOrder_append_new db r hi]
    simp [newItemRows]
  · rw [itemsOfOrder_append_new db r hi]
    unfold newItemRows
    rw [List.map_map]
    rfl
  · exact ordersWithId_append_new db r ho
  · exact paymentsOfOrder_append_new db r hp

/-- C7 witness: the seed scenario's successful order. -/
theorem C7_witness :
    (itemsOfOrder (placeOrder dbSeed reqSeed true true).1.order_items 1).length
        = reqSeed.items.length ∧
      (itemsOfOrder (placeOrder dbSeed reqSeed true true).1.order_items 1).map
          (fun i => (i.menu_item_id, i.quantity, i.price))
        = reqSeed.items.map (fun it => (it.menu_item_id, it.quantity, it.price)) ∧
      ordersWithId (placeOrder dbSeed reqSeed true true).1.orders 1
        = [newOrderRow dbSeed reqSeed] ∧
      (newOrderRow dbSeed reqSeed).status = OrderStatus.pending ∧
      (newOrderRow dbSeed reqSeed).payment_status = PayStatus.pending ∧
      paymentsOfOrder (placeOrder dbSeed reqSeed true true).1.payments 1
        = [newPaymentRow dbSeed reqSeed] ∧
      (newPaymentRow dbSeed reqSeed).status = PayStatus.pending ∧
      (newPaymentRow dbSeed reqSeed).amount = reqSeed.total_amount :=
  C7_success_persists_rows dbSeed reqSeed true true 1
    (by decide) (by decide) (by decide) (by decide)

/-- C8 counterexample: in the low-stock scenario the exhausted ingredient
is "Flour" (inventory id 7, requested through menu line 7), yet the error
returned to the caller is the fixed string "Insufficient inventory" — it
contains neither the ingredient name nor the line's identifier. -/
theorem C8_counterexample :
    (placeOrder dbLowStock reqLowStock true true).2.1
        = Resp.serverError "Insufficient inventory" ∧
      dbLowStock.inventory.map (fun row => row.item_name) = ["Flour"] ∧
      reqLowStock.items.map (fun it => it.menu_item_id) = [7] ∧
      mentions "Insufficient inventory" "Flour" = false ∧
      mentions "Insufficient inventory" "7" = false := by
  decide

/-- C8 (amended): when order placement fails for insufficient stock the
caller receives the fixed message "Insufficient inventory": the first
exhausted line determines where the loop stops, but the error does not name
the ingredient or menu line. -/
theorem C8_amended_fixed_message (db : DB) (r : OrderRequest) (cOk : Bool)
    (hv : validateOrder r = none)
    (hd : (deductItems db.menu_inventory_mapping db.inventory r.items).2 = none) :
    (placeOrder db r true cOk).2.1 = Resp.serverError "Insufficient inventory" := by
  rw [placeOrder_insufficient_eq db r cOk hv hd]

/-- C8 witness: the low-stock scenario's fixed error message. -/
theorem C8_amended_witness :
    (placeOrder dbLowStock reqLowStock true true).2.1
      = Resp.serverError "Insufficient inventory" :=
  C8_amended_fixed_message dbLowStock reqLowStock true (by decide) (by decide)
